import Mathlib

/-!
Verification of the trending-news front-end widget (`index.tsx`).

The development shallowly embeds the script's pure logic:
* `escapeHtml` — the five sequential global character replacements;
* the tolerant extraction (`indexOf '['` / `lastIndexOf ']'` / `substring`)
  of a JSON array from free-form model output;
* a JSON value parser modelling the platform `JSON.parse` on the inputs
  the widget feeds it (values, objects, arrays, strings with escapes,
  numbers, literals; a complete, whitespace-tolerant top level);
* a model of the platform `new URL(u).hostname` restricted to
  hierarchical `scheme://host` URLs, plus the leading `www.` strip;
* `fetchAndDisplayNews` as a pure function from the activation
  environment (client initialized?, outcome of the one external call)
  to the final UI state (loading flag, results-container markup).

Strings are processed as `List Char`; `String` is used at the interface.
-/

namespace TrendingNews

/-- The double-quote character (code 34). -/
def dquote : Char := Char.ofNat 34

/-- The single-quote character (code 39). -/
def squote : Char := Char.ofNat 39

/-- The backslash character (code 92). -/
def bslash : Char := Char.ofNat 92

/-- The newline character (code 10). -/
def nlChar : Char := Char.ofNat 10

/-- Left curly brace (code 123). -/
def lbrace : Char := Char.ofNat 123

/-- Right curly brace (code 125). -/
def rbrace : Char := Char.ofNat 125

/-- Global replacement of one character by a string, left to right:
the embedding of JavaScript `s.replace(/c/g, r)` for a single
character pattern. -/
def replaceAllC (c : Char) (r : List Char) : List Char → List Char
  | [] => []
  | x :: xs => if x = c then r ++ replaceAllC c r xs else x :: replaceAllC c r xs

/-- `escapeHtml` from the source, on character lists: five global
replacements applied in the source's order (`&` first, then `<`, `>`,
`"`, `'`). -/
def escapeHtmlL (l : List Char) : List Char :=
  replaceAllC squote "&#039;".data
    (replaceAllC dquote "&quot;".data
      (replaceAllC '>' "&gt;".data
        (replaceAllC '<' "&lt;".data
          (replaceAllC '&' "&amp;".data l))))

/-- `escapeHtml` from the source, at `String` type. -/
def escapeHtml (s : String) : String := String.mk (escapeHtmlL s.data)

/-- The five characters the source's `escapeHtml` replaces. -/
def specials : List Char := ['&', '<', '>', dquote, squote]

/-- Specification-side per-character image of `escapeHtml`: each special
character maps to its named entity, every other character to itself. -/
def escChar (c : Char) : List Char :=
  if c = '&' then "&amp;".data
  else if c = '<' then "&lt;".data
  else if c = '>' then "&gt;".data
  else if c = dquote then "&quot;".data
  else if c = squote then "&#039;".data
  else [c]

/-- Character-wise concatenation of `escChar` over a list. -/
def escCharAll : List Char → List Char
  | [] => []
  | c :: cs => escChar c ++ escCharAll cs

/-- Boolean list-prefix test (first argument is the candidate prefix). -/
def beginsWith : List Char → List Char → Bool
  | [], _ => true
  | _ :: _, [] => false
  | p :: ps, x :: xs => p = x && beginsWith ps xs

/-- After an `&`, the tail must spell out one of the five entities
produced by `escapeHtml`. -/
def okTail (l : List Char) : Bool :=
  beginsWith "amp;".data l || beginsWith "lt;".data l ||
    beginsWith "gt;".data l || beginsWith "quot;".data l ||
      beginsWith "#039;".data l

/-- No raw special characters: the angle-bracket and quote characters
never occur, and every `&` begins one of the five named entities. -/
def noRawSpecials : List Char → Bool
  | [] => true
  | c :: rest =>
    (if c = '&' then okTail rest
     else !(c = '<' || c = '>' || c = dquote || c = squote)) && noRawSpecials rest

/-- Boolean substring test: does the second list occur contiguously in
the first? -/
def hasSub : List Char → List Char → Bool
  | [], pat => beginsWith pat []
  | x :: xs, pat => beginsWith pat (x :: xs) || hasSub xs pat

/-- First index of a character in a list: JavaScript `indexOf`, with
`none` standing for the sentinel `-1`. -/
def firstIdxOf (c : Char) : List Char → Option Nat
  | [] => none
  | x :: xs => if x = c then some 0 else (firstIdxOf c xs).map Nat.succ

/-- Last index of a character in a list: JavaScript `lastIndexOf`, with
`none` standing for the sentinel `-1`. -/
def lastIdxOf (c : Char) : List Char → Option Nat
  | [] => none
  | x :: xs =>
    match lastIdxOf c xs with
    | some i => some (i + 1)
    | none => if x = c then some 0 else none

/-- JavaScript `String.prototype.substring`: both indices are clamped to
the length and swapped when given in descending order. -/
def jsSubstring (l : List Char) (a b : Nat) : List Char :=
  let len := l.length
  let lo := min (min a len) (min b len)
  let hi := max (min a len) (min b len)
  (l.drop lo).take (hi - lo)

/-- Longest Boolean-predicate-satisfying split of a character list. -/
def spanP (p : Char → Bool) : List Char → (List Char × List Char)
  | [] => ([], [])
  | c :: rest =>
    if p c then
      let s := spanP p rest
      (c :: s.1, s.2)
    else ([], c :: rest)

/-- JSON values as produced by `JSON.parse` (object key order and
duplicate keys preserved; numeric values kept to their integer part,
which is all the widget's truthiness test can observe). -/
inductive Json where
  | null
  | bool (b : Bool)
  | num (n : Int)
  | str (s : List Char)
  | arr (xs : List Json)
  | obj (kvs : List (List Char × Json))

/-- JSON whitespace skipping (space, tab, line feed, carriage return). -/
def skipWs : List Char → List Char
  | [] => []
  | c :: rest =>
    if c = ' ' || c.toNat = 9 || c.toNat = 10 || c.toNat = 13 then skipWs rest
    else c :: rest

/-- Value of a hexadecimal digit character. -/
def hexVal (c : Char) : Option Nat :=
  let n := c.toNat
  if 48 ≤ n ∧ n ≤ 57 then some (n - 48)
  else if 97 ≤ n ∧ n ≤ 102 then some (n - 87)
  else if 65 ≤ n ∧ n ≤ 70 then some (n - 55)
  else none

/-- Single-character JSON string escapes. -/
def escMap (e : Char) : Option Char :=
  if e = dquote then some dquote
  else if e = bslash then some bslash
  else if e = '/' then some '/'
  else if e = 'b' then some (Char.ofNat 8)
  else if e = 'f' then some (Char.ofNat 12)
  else if e = 'n' then some (Char.ofNat 10)
  else if e = 'r' then some (Char.ofNat 13)
  else if e = 't' then some (Char.ofNat 9)
  else none

/-- Body of a JSON string, after the opening quote: returns the decoded
characters and the input after the closing quote.  Raw control
characters are rejected, as in JSON; `\u` escapes are decoded when they
denote a Unicode scalar value (the model leaves lone surrogates out of
the domain). -/
def parseStringBody : List Char → Option (List Char × List Char)
  | [] => none
  | c :: rest =>
    if c = dquote then some ([], rest)
    else if c = bslash then
      match rest with
      | [] => none
      | e :: r2 =>
        if e = 'u' then
          match r2 with
          | h1 :: h2 :: h3 :: h4 :: r3 =>
            match hexVal h1, hexVal h2, hexVal h3, hexVal h4 with
            | some a, some b, some c2, some d =>
              let n := ((a * 16 + b) * 16 + c2) * 16 + d
              if 55296 ≤ n ∧ n ≤ 57343 then none
              else (parseStringBody r3).map (fun s => (Char.ofNat n :: s.1, s.2))
            | _, _, _, _ => none
          | _ => none
        else
          match escMap e with
          | some ec => (parseStringBody r2).map (fun s => (ec :: s.1, s.2))
          | none => none
    else if c.toNat < 32 then none
    else (parseStringBody rest).map (fun s => (c :: s.1, s.2))

/-- Leading-zero rule of JSON numbers: a `0` may not be followed by a
further digit. -/
def leadZeroBad : List Char → Bool
  | '0' :: d :: _ => d.isDigit
  | _ => false

/-- Decimal value of a digit list. -/
def digitsVal (l : List Char) : Nat :=
  l.foldl (fun acc c => acc * 10 + (c.toNat - 48)) 0

/-- A JSON number: optional sign, integer part, optional fraction and
exponent (consumed and validated; the stored value is the signed
integer part, see `Json.num`). -/
def parseNum (l : List Char) : Option (Int × List Char) :=
  let sgn : Bool × List Char :=
    match l with
    | c :: r => if c = '-' then (true, r) else (false, l)
    | [] => (false, l)
  match sgn.2 with
  | [] => none
  | c :: _ =>
    if !c.isDigit then none
    else
      let ds := spanP Char.isDigit sgn.2
      if leadZeroBad ds.1 then none
      else
        let afterFrac : Option (List Char) :=
          match ds.2 with
          | fc :: fr =>
            if fc = '.' then
              match fr with
              | d :: _ => if d.isDigit then some (spanP Char.isDigit fr).2 else none
              | [] => none
            else some ds.2
          | [] => some ds.2
        match afterFrac with
        | none => none
        | some l3 =>
          let afterExp : Option (List Char) :=
            match l3 with
            | ec :: er =>
              if ec = 'e' || ec = 'E' then
                let er2 : List Char :=
                  match er with
                  | s :: rr => if s = '+' || s = '-' then rr else er
                  | [] => er
                match er2 with
                | d :: _ => if d.isDigit then some (spanP Char.isDigit er2).2 else none
                | [] => none
              else some l3
            | [] => some l3
          match afterExp with
          | none => none
          | some l4 =>
            some (if sgn.1 then -(digitsVal ds.1 : Int) else (digitsVal ds.1 : Int), l4)

/-- Partial container being assembled by the JSON parser: an array with
the elements read so far (reversed), or an object with the members read
so far (reversed) and the key awaiting its value. -/
inductive PFrame where
  | arr (items : List Json)
  | obj (kvs : List (List Char × Json)) (key : List Char)

/-- One-pass JSON parser, as a stack machine over an explicit fuel: the
third argument is `none` when a value is expected and `some v` when the
value `v` has just been completed.  An empty stack with a completed
value accepts exactly when only whitespace remains, as `JSON.parse`
rejects trailing text. -/
def parseStep : Nat → List PFrame → Option Json → List Char → Option Json
  | 0, _, _, _ => none
  | Nat.succ fuel, stack, none, l =>
    match skipWs l with
    | [] => none
    | c :: rest =>
      if c = dquote then
        match parseStringBody rest with
        | some s => parseStep fuel stack (some (Json.str s.1)) s.2
        | none => none
      else if c = '[' then
        match skipWs rest with
        | ']' :: r2 => parseStep fuel stack (some (Json.arr [])) r2
        | r2 => parseStep fuel (PFrame.arr [] :: stack) none r2
      else if c = lbrace then
        match skipWs rest with
        | [] => none
        | c2 :: r3 =>
          if c2 = rbrace then parseStep fuel stack (some (Json.obj [])) r3
          else if c2 = dquote then
            match parseStringBody r3 with
            | some k =>
              match skipWs k.2 with
              | ':' :: r5 => parseStep fuel (PFrame.obj [] k.1 :: stack) none r5
              | _ => none
            | none => none
          else none
      else if c = 't' then
        match rest with
        | 'r' :: 'u' :: 'e' :: r2 => parseStep fuel stack (some (Json.bool true)) r2
        | _ => none
      else if c = 'f' then
        match rest with
        | 'a' :: 'l' :: 's' :: 'e' :: r2 => parseStep fuel stack (some (Json.bool false)) r2
        | _ => none
      else if c = 'n' then
        match rest with
        | 'u' :: 'l' :: 'l' :: r2 => parseStep fuel stack (some Json.null) r2
        | _ => none
      else if c = '-' || c.isDigit then
        match parseNum (c :: rest) with
        | some nr => parseStep fuel stack (some (Json.num nr.1)) nr.2
        | none => none
      else none
  | Nat.succ fuel, stack, some v, l =>
    match stack with
    | [] => if (skipWs l).isEmpty then some v else none
    | PFrame.arr items :: stk =>
      match skipWs l with
      | [] => none
      | c :: rest =>
        if c = ',' then parseStep fuel (PFrame.arr (v :: items) :: stk) none rest
        else if c = ']' then
          parseStep fuel stk (some (Json.arr (v :: items).reverse)) rest
        else none
    | PFrame.obj kvs k :: stk =>
      match skipWs l with
      | [] => none
      | c :: rest =>
        if c = ',' then
          match skipWs rest with
          | [] => none
          | c2 :: r3 =>
            if c2 = dquote then
              match parseStringBody r3 with
              | some k2 =>
                match skipWs k2.2 with
                | ':' :: r5 =>
                  parseStep fuel (PFrame.obj ((k, v) :: kvs) k2.1 :: stk) none r5
                | _ => none
              | none => none
            else none
        else if c = rbrace then
          parseStep fuel stk (some (Json.obj ((k, v) :: kvs).reverse)) rest
        else none

/-- The platform `JSON.parse`, modelled on character lists: `none`
stands for a thrown `SyntaxError`. -/
def jsonParseL (l : List Char) : Option Json :=
  parseStep (l.length + 2) [] none l

/-- Characters allowed after the first letter of a URL scheme. -/
def isSchemeTail (c : Char) : Bool :=
  c.isAlpha || c.isDigit || c = '+' || c = '-' || c = '.'

/-- The platform `new URL(u).hostname`, modelled for hierarchical
`scheme://host` URLs (the shape the widget's data uses): `none` stands
for a thrown `TypeError`.  The authority is the text up to the first
`/`, `?` or `#`; userinfo up to a final `@` and a `:port` suffix are
dropped, and the host is lowercased.  Non-hierarchical URLs (such as
`mailto:`) and invalid-host validation are outside the modelled
domain. -/
def urlHostname (l : List Char) : Option (List Char) :=
  match l with
  | [] => none
  | c :: rest =>
    if c.isAlpha then
      match (spanP isSchemeTail rest).2 with
      | ':' :: '/' :: '/' :: r2 =>
        let auth := (spanP (fun ch => !(ch = '/' || ch = '?' || ch = '#')) r2).1
        let hostport := (auth.reverse.takeWhile (fun ch => ch ≠ '@')).reverse
        let host := hostport.takeWhile (fun ch => ch ≠ ':')
        if host.isEmpty then none else some (host.map Char.toLower)
      | _ => none
    else none

/-- The source's `.replace(/^www\./, '')` applied to a hostname. -/
def stripWww (h : List Char) : List Char :=
  match h with
  | 'w' :: 'w' :: 'w' :: '.' :: rest => rest
  | _ => h

/-- JavaScript property read on a parse result, last duplicate key
winning as in objects built by `JSON.parse`. -/
def jgetL : List (List Char × Json) → List Char → Option Json
  | [], _ => none
  | kv :: rest, key =>
    match jgetL rest key with
    | some r => some r
    | none => if kv.1 = key then some kv.2 else none

/-- `x.key` on a JSON value: `none` is `undefined`.  (Reading a property
of `null` throws instead; the rendering loop models that case
separately.) -/
def jget (j : Json) (key : List Char) : Option Json :=
  match j with
  | Json.obj kvs => jgetL kvs key
  | _ => none

/-- JavaScript truthiness of a possibly-absent JSON value. -/
def truthy : Option Json → Bool
  | none => false
  | some Json.null => false
  | some (Json.bool b) => b
  | some (Json.num n) => n != 0
  | some (Json.str s) => !s.isEmpty
  | some (Json.arr _) => true
  | some (Json.obj _) => true

/-- The character list of the key `title`. -/
def titleKey : List Char := "title".data

/-- The character list of the key `url`. -/
def urlKey : List Char := "url".data

/-- Message rendered when the AI client was never initialized. -/
def clientNotInitMsg : String :=
  "<p>The AI client is not initialized. Please ensure your API key is configured correctly.</p>"

/-- Message rendered when the parsed payload holds no records. -/
def noNewsMsg : String :=
  "<p>No trending news could be retrieved at this time.</p>"

/-- Message rendered when the call fails or returns an empty payload. -/
def fetchErrorMsg : String :=
  "<p>An error occurred while fetching news. Please check the console for details.</p>"

/-- Markup of one news item, as built in the loop body: a `news-item`
div whose inner markup interpolates the raw `uri` into `href` and the
escaped title and escaped source name into the heading and the
subtitle.  (The template literal's indentation whitespace is
dropped.) -/
def newsItemMarkup (uri title source : List Char) : List Char :=
  "<div class=\"news-item\"><a href=\"".data ++ uri ++
    "\" target=\"_blank\" rel=\"noopener noreferrer\"><h3>".data ++
      escapeHtmlL title ++ "</h3><p>".data ++ escapeHtmlL source ++
        "</p></a></div>".data

/-- The parse-failure fallback: the raw response text, escaped, with
newlines replaced by `<br>`, wrapped in a paragraph. -/
def fallbackMarkup (text : List Char) : List Char :=
  "<p>".data ++ replaceAllC nlChar "<br>".data (escapeHtmlL text) ++ "</p>".data

/-- One iteration of the `for (const article of articles)` loop, acting
on the accumulated container markup.  `Except.error ()` models an
exception escaping the loop body: reading a property of `null`, the
`URL` constructor rejecting the url, or (modelled coarsely) a
truthy non-string field reaching the string operations. -/
def renderStep (container : List Char) (article : Json) : Except Unit (List Char) :=
  match article with
  | Json.null => Except.error ()
  | _ =>
    if truthy (jget article titleKey) && truthy (jget article urlKey) then
      match jget article titleKey, jget article urlKey with
      | some (Json.str ts), some (Json.str us) =>
        match urlHostname us with
        | some host => Except.ok (container ++ newsItemMarkup us ts (stripWww host))
        | none => Except.error ()
      | _, _ => Except.error ()
    else Except.ok container

/-- The whole article loop over the parsed array. -/
def renderLoop : List Char → List Json → Except Unit (List Char)
  | acc, [] => Except.ok acc
  | acc, a :: rest =>
    match renderStep acc a with
    | Except.ok acc2 => renderLoop acc2 rest
    | Except.error e => Except.error e

/-- The slice taken by the tolerant extraction: from the first `[` to
the last `]` (inclusive), `none` when either bracket is missing. -/
def extractJsonSlice (text : List Char) : Option (List Char) :=
  match firstIdxOf '[' text, lastIdxOf ']' text with
  | some a, some b => some (jsSubstring text a (b + 1))
  | _, _ => none

/-- The inner `try` block of `fetchAndDisplayNews` on a non-empty
response text: the container markup it produces, or `Except.error ()`
for any exception reaching the inner `catch` (missing brackets,
`JSON.parse` failure, or a throw inside the loop). -/
def innerRender (text : List Char) : Except Unit (List Char) :=
  match extractJsonSlice text with
  | none => Except.error ()
  | some js =>
    match jsonParseL js with
    | none => Except.error ()
    | some (Json.arr items) =>
      if items.isEmpty then Except.ok noNewsMsg.data
      else renderLoop [] items
    | some _ => Except.ok noNewsMsg.data

/-- Final UI state of one fetch cycle: the loading flag and the markup
content of the results container. -/
structure DisplayState where
  loading : Bool
  results : String

/-- `fetchAndDisplayNews`, as a function of whether the AI client was
initialized and of the outcome of the one external call
(`Except.error ()` models the call rejecting; the payload is
`response.text`, the empty string standing for an empty or absent
text).  The final record update models the `finally` block clearing the
loading flag; the early client-unavailable return clears it
explicitly, as in the source. -/
def fetchAndDisplayNews (aiInit : Bool) (call : Except Unit String) : DisplayState :=
  if !aiInit then { loading := false, results := clientNotInitMsg }
  else
    let afterTry : DisplayState :=
      match call with
      | Except.error _ => { loading := true, results := fetchErrorMsg }
      | Except.ok textResponse =>
        if textResponse.data.isEmpty then { loading := true, results := fetchErrorMsg }
        else
          match innerRender textResponse.data with
          | Except.ok content => { loading := true, results := String.mk content }
          | Except.error _ =>
            { loading := true, results := String.mk (fallbackMarkup textResponse.data) }
    { afterTry with loading := false }

/-- The markup one article contributes on its own: what `renderStep`
appends from an empty container, and nothing when the record is
skipped. -/
def renderItem (a : Json) : List Char :=
  match renderStep [] a with
  | Except.ok l => l
  | Except.error _ => []

/-- An article the loop body handles without throwing: it is either
skipped or rendered. -/
def articleOk (a : Json) : Bool :=
  match renderStep [] a with
  | Except.ok _ => true
  | Except.error _ => false

/-- The source's per-record guard `article.title && article.url`: both
fields present and truthy. -/
def renderable (a : Json) : Bool :=
  truthy (jget a titleKey) && truthy (jget a urlKey)

/-- A record that passes the guard with string fields but whose url the
`URL` constructor rejects. -/
def badUrlArticle (a : Json) : Bool :=
  match jget a titleKey, jget a urlKey with
  | some (Json.str ts), some (Json.str us) =>
    !ts.isEmpty && !us.isEmpty && (urlHostname us).isNone
  | _, _ => false

/-- The testable-property payload: a JSON array embedded in prose. -/
def payloadC4 : String :=
  "Here are headlines: [\x7b\"title\":\"A\",\"url\":\"https://www.example.com/a\"\x7d] enjoy"

/-- A payload pairing a record that lacks `url` with a sibling whose
fields are non-empty but whose url the `URL` constructor rejects. -/
def payloadC5 : String :=
  "[\x7b\"title\":\"A\"\x7d,\x7b\"title\":\"B\",\"url\":\"x\"\x7d]"

/-- A payload whose single record has a benign title and a url whose
path embeds a quote and a script tag (legal for the `URL`
constructor). -/
def payloadC1 : String :=
  "[\x7b\"title\":\"T\",\"url\":\"https://ex.com/\\\"><script>alert(1)</script>\"\x7d]"

/-- The url of the record inside `payloadC1`, as `JSON.parse` decodes
it. -/
def urlC1 : String := "https://ex.com/\"><script>alert(1)</script>"

/-- A valid record preceding the throwing one in `textC10`. -/
def preC10 : List Json :=
  [Json.obj [(titleKey, Json.str "A".data), (urlKey, Json.str "https://a.com/1".data)]]

/-- The record of `textC10` whose url the `URL` constructor rejects. -/
def recB10 : Json :=
  Json.obj [(titleKey, Json.str "B".data), (urlKey, Json.str "not a url".data)]

/-- A valid record following the throwing one in `textC10`. -/
def postC10 : List Json :=
  [Json.obj [(titleKey, Json.str "C".data), (urlKey, Json.str "https://c.com/1".data)]]

/-- Payload whose middle record throws in the loop between two valid
ones. -/
def textC10 : String :=
  "[\x7b\"title\":\"A\",\"url\":\"https://a.com/1\"\x7d,\x7b\"title\":\"B\",\"url\":\"not a url\"\x7d,\x7b\"title\":\"C\",\"url\":\"https://c.com/1\"\x7d]"

/-- Records of the amended-claim witness: one record missing `url`, one
fully valid sibling. -/
def itemsW : List Json :=
  [Json.obj [(titleKey, Json.str "A".data)],
    Json.obj [(titleKey, Json.str "B".data), (urlKey, Json.str "https://www.b.com/x".data)]]

/-! ## Properties of the escaping function -/

theorem replaceAllC_append (c : Char) (r a b : List Char) :
    replaceAllC c r (a ++ b) = replaceAllC c r a ++ replaceAllC c r b := by
  induction a with
  | nil => rfl
  | cons x xs ih =>
    simp only [List.cons_append, replaceAllC, ih]
    split <;> simp [List.append_assoc, ih]

theorem escapeHtmlL_append (a b : List Char) :
    escapeHtmlL (a ++ b) = escapeHtmlL a ++ escapeHtmlL b := by
  simp [escapeHtmlL, replaceAllC_append]

theorem escapeHtmlL_single (c : Char) : escapeHtmlL [c] = escChar c := by
  by_cases h1 : c = '&'
  · subst h1; decide
  by_cases h2 : c = '<'
  · subst h2; decide
  by_cases h3 : c = '>'
  · subst h3; decide
  by_cases h4 : c = dquote
  · subst h4; decide
  by_cases h5 : c = squote
  · subst h5; decide
  simp [escapeHtmlL, escChar, replaceAllC, h1, h2, h3, h4, h5]

theorem escapeHtmlL_eq_escCharAll (l : List Char) : escapeHtmlL l = escCharAll l := by
  induction l with
  | nil => rfl
  | cons c cs ih =>
    have h : c :: cs = [c] ++ cs := rfl
    rw [h, escapeHtmlL_append, escapeHtmlL_single, ih]
    rfl

theorem noRaw_escChar (c : Char) (rest : List Char)
    (h : noRawSpecials rest = true) : noRawSpecials (escChar c ++ rest) = true := by
  by_cases h1 : c = '&'
  · subst h1; exact h
  by_cases h2 : c = '<'
  · subst h2; exact h
  by_cases h3 : c = '>'
  · subst h3; exact h
  by_cases h4 : c = dquote
  · subst h4; exact h
  by_cases h5 : c = squote
  · subst h5; exact h
  simp [escChar, noRawSpecials, h1, h2, h3, h4, h5, h]

theorem noRaw_escCharAll (l : List Char) : noRawSpecials (escCharAll l) = true := by
  induction l with
  | nil => rfl
  | cons c cs ih => exact noRaw_escChar c _ ih

theorem escChar_of_not_special (c : Char) (h : c ∉ specials) : escChar c = [c] := by
  simp only [specials, List.mem_cons, List.mem_singleton, not_or] at h
  obtain ⟨h1, h2, h3, h4, h5⟩ := h
  simp [escChar, h1, h2, h3, h4, h5]

theorem escCharAll_of_clean (l : List Char) (h : ∀ c ∈ l, c ∉ specials) :
    escCharAll l = l := by
  induction l with
  | nil => rfl
  | cons c cs ih =>
    have hc := escChar_of_not_special c (h c (by simp))
    simp only [escCharAll, hc, List.singleton_append]
    rw [ih fun x hx => h x (by simp [hx])]

/-- C2: `escapeHtml` is pure and total on strings: its output is
exactly the character-wise image replacing each of the five special
characters by its named entity (`escCharAll`); the output holds no raw
special character (`noRawSpecials`: no angle bracket or quote at all,
and every `&` opening one of the five entities); and an input free of
the five characters is returned unchanged. -/
theorem escapeHtml_spec (s : String) :
    escapeHtml s = String.mk (escCharAll s.data)
      ∧ noRawSpecials (escapeHtml s).data = true
        ∧ ((∀ c ∈ s.data, c ∉ specials) → escapeHtml s = s) := by
  refine ⟨?_, ?_, ?_⟩
  · show String.mk (escapeHtmlL s.data) = String.mk (escCharAll s.data)
    rw [escapeHtmlL_eq_escCharAll]
  · show noRawSpecials (escapeHtmlL s.data) = true
    rw [escapeHtmlL_eq_escCharAll]
    exact noRaw_escCharAll s.data
  · intro h
    show String.mk (escapeHtmlL s.data) = s
    rw [escapeHtmlL_eq_escCharAll, escCharAll_of_clean s.data h]

/-- Witness for C2 at concrete inputs: a clean string is fixed, and the
escaped image of a string of all five specials is their entity
concatenation with no raw special left. -/
theorem escapeHtml_spec_witness :
    (∀ c ∈ ("hello" : String).data, c ∉ specials) ∧ escapeHtml "hello" = "hello" :=
  ⟨by decide, (escapeHtml_spec "hello").2.2 (by decide)⟩

/-- C7: applying `escapeHtml` once to `"&"` yields `"&amp;"`, and a
second application double-encodes the `&`, so the function is not
idempotent under double application. -/
theorem escapeHtml_not_idempotent_twice :
    escapeHtml "&" = "&amp;"
      ∧ escapeHtml (escapeHtml "&") ≠ escapeHtml "&"
        ∧ escapeHtml (escapeHtml "&") = "&amp;amp;" := by
  refine ⟨by decide, by decide, by decide⟩

/-! ## The fetch/render pipeline -/

/-- C3: on every exit path of `fetchAndDisplayNews` — over every
combination of client initialization and call outcome, hence over the
success path, the client-not-initialized early return, the
empty-response failure, the raw-text fallback, the empty-result-set
return and the rejection of the external call — the loading flag is
false in the final state. -/
theorem loading_cleared_on_all_paths (aiInit : Bool) (call : Except Unit String) :
    (fetchAndDisplayNews aiInit call).loading = false := by
  cases aiInit <;> rfl

/-- C9: when the external call rejects, and when it resolves with empty
response text, `fetchAndDisplayNews` puts the generic
error-occurred-check-logs message into the results container. -/
theorem generic_error_on_reject_or_empty :
    fetchAndDisplayNews true (Except.error ())
        = { loading := false, results := fetchErrorMsg }
      ∧ fetchAndDisplayNews true (Except.ok "")
          = { loading := false, results := fetchErrorMsg } :=
  ⟨rfl, rfl⟩

/-- C4: on the payload embedding one record in prose, the tolerant
extraction slices from the first `[` to the last `]`, the slice parses
to exactly the one record with title `A` and the full url, and the run
renders one news item whose source label is the host with the scheme
and the leading `www.` stripped, `example.com`. -/
theorem tolerant_extraction_renders_host :
    extractJsonSlice payloadC4.data
        = some "[\x7b\"title\":\"A\",\"url\":\"https://www.example.com/a\"\x7d]".data
      ∧ jsonParseL "[\x7b\"title\":\"A\",\"url\":\"https://www.example.com/a\"\x7d]".data
          = some (Json.arr [Json.obj
              [(titleKey, Json.str "A".data),
                (urlKey, Json.str "https://www.example.com/a".data)]])
        ∧ fetchAndDisplayNews true (Except.ok payloadC4)
            = { loading := false,
                results := String.mk (newsItemMarkup
                  "https://www.example.com/a".data "A".data "example.com".data) } :=
  ⟨rfl, rfl, rfl⟩

/-- C1 (code bug): the title and the derived host label are escaped,
but the record's url is interpolated into the `href` attribute raw; on
a url whose path embeds a quote and a script tag the rendered markup
contains the raw characters, and the escaped image of the url appears
nowhere — contradicting the requirement that every inserted untrusted
value pass through the escaping function. -/
theorem raw_url_in_href :
    hasSub (fetchAndDisplayNews true (Except.ok payloadC1)).results.data
        "href=\"https://ex.com/\"><script>alert(1)</script>\"".data = true
      ∧ hasSub (fetchAndDisplayNews true (Except.ok payloadC1)).results.data
          (escapeHtmlL urlC1.data) = false := by
  refine ⟨by decide, by decide⟩

/-- Counterexample to C5 as stated: in the parsed array of
`payloadC5`, the first record lacks `url` and is skipped, but the
sibling record — valid in the claim's sense, both fields non-empty —
is still not rendered: its url `x` makes the `URL` constructor throw,
the batch is abandoned, and the container holds the escaped raw text
with no news item at all. -/
theorem skip_claim_counterexample :
    jsonParseL payloadC5.data
        = some (Json.arr
            [Json.obj [(titleKey, Json.str "A".data)],
              Json.obj [(titleKey, Json.str "B".data), (urlKey, Json.str "x".data)]])
      ∧ renderable (Json.obj [(titleKey, Json.str "B".data), (urlKey, Json.str "x".data)])
          = true
        ∧ (fetchAndDisplayNews true (Except.ok payloadC5)).results
            = String.mk (fallbackMarkup payloadC5.data)
          ∧ hasSub (fetchAndDisplayNews true (Except.ok payloadC5)).results.data
              "<h3>".data = false :=
  ⟨rfl, rfl, rfl, by decide⟩

theorem renderStep_shift (acc : List Char) (a : Json) :
    renderStep acc a = (renderStep [] a).map (fun l => acc ++ l) := by
  cases a with
  | null => rfl
  | bool b => simp [renderStep, jget, truthy, Except.map]
  | num n => simp [renderStep, jget, truthy, Except.map]
  | str s => simp [renderStep, jget, truthy, Except.map]
  | arr xs => simp [renderStep, jget, truthy, Except.map]
  | obj kvs =>
    simp only [renderStep]
    cases hcond : truthy (jget (Json.obj kvs) titleKey) && truthy (jget (Json.obj kvs) urlKey)
    · simp [hcond, Except.map]
    · simp only [hcond, if_true]
      rcases hT : jget (Json.obj kvs) titleKey with _ | tv
      · simp [hT, Except.map]
      · rcases hU : jget (Json.obj kvs) urlKey with _ | uv
        · cases tv <;> simp [hT, hU, Except.map]
        · cases tv <;> cases uv <;> simp [hT, hU, Except.map]
          cases hH : urlHostname _ <;> simp [hH, Except.map]

theorem renderStep_ok_of_articleOk (acc : List Char) (a : Json)
    (h : articleOk a = true) :
    renderStep acc a = Except.ok (acc ++ renderItem a) := by
  unfold articleOk at h
  unfold renderItem
  rw [renderStep_shift]
  cases hh : renderStep [] a with
  | ok l => rfl
  | error e => rw [hh] at h; simp at h

theorem renderStep_error_of_bad (acc : List Char) (a : Json)
    (h : badUrlArticle a = true) :
    renderStep acc a = Except.error () := by
  cases a with
  | null => simp [badUrlArticle, jget] at h
  | bool b => simp [badUrlArticle, jget] at h
  | num n => simp [badUrlArticle, jget] at h
  | str s => simp [badUrlArticle, jget] at h
  | arr xs => simp [badUrlArticle, jget] at h
  | obj kvs =>
    unfold badUrlArticle at h
    rcases hT : jget (Json.obj kvs) titleKey with _ | tv
    · rw [hT] at h; simp at h
    · rcases hU : jget (Json.obj kvs) urlKey with _ | uv
      · rw [hT, hU] at h; cases tv <;> simp at h
      · rw [hT, hU] at h
        cases tv <;> cases uv <;> simp at h
        rename_i ts us
        obtain ⟨⟨hts, hus⟩, hnone⟩ := h
        simp [renderStep, hT, hU, truthy, hts, hus, hnone]

theorem renderLoop_ok : ∀ items : List Json,
    (∀ a ∈ items, articleOk a = true) → ∀ acc : List Char,
      renderLoop acc items = Except.ok (acc ++ (items.map renderItem).flatten) := by
  intro items
  induction items with
  | nil => intro _ acc; simp [renderLoop]
  | cons a rest ih =>
    intro h acc
    have hs := renderStep_ok_of_articleOk acc a (h a (by simp))
    simp only [renderLoop, hs]
    rw [ih (fun b hb => h b (by simp [hb])) (acc ++ renderItem a)]
    simp [List.append_assoc]

theorem renderLoop_error_mid (a : Json) (post : List Json)
    (ha : badUrlArticle a = true) : ∀ pre : List Json,
      (∀ b ∈ pre, articleOk b = true) → ∀ acc : List Char,
        renderLoop acc (pre ++ a :: post) = Except.error () := by
  intro pre
  induction pre with
  | nil => intro _ acc; simp [renderLoop, renderStep_error_of_bad acc a ha]
  | cons b rest ih =>
    intro hpre acc
    have hs := renderStep_ok_of_articleOk acc b (hpre b (by simp))
    simp only [List.cons_append, renderLoop, hs]
    exact ih (fun x hx => hpre x (by simp [hx])) _

theorem extract_ne_nil {t : List Char} {js : List Char}
    (h : extractJsonSlice t = some js) : t.isEmpty = false := by
  cases t with
  | nil => simp [extractJsonSlice, firstIdxOf] at h
  | cons c r => rfl

theorem fetch_ok (text : String) (hne : text.data.isEmpty = false)
    (c : List Char) (h : innerRender text.data = Except.ok c) :
    fetchAndDisplayNews true (Except.ok text)
      = { loading := false, results := String.mk c } := by
  simp [fetchAndDisplayNews, hne, h]

theorem fetch_err (text : String) (hne : text.data.isEmpty = false)
    (h : innerRender text.data = Except.error ()) :
    fetchAndDisplayNews true (Except.ok text)
      = { loading := false, results := String.mk (fallbackMarkup text.data) } := by
  simp [fetchAndDisplayNews, hne, h]

/-- C8: whenever the extracted slice parses to an empty array, the run
renders the no-trending-news message — not an error message — and the
loading flag is cleared despite the early return. -/
theorem empty_array_no_news (text : String) (js : List Char)
    (h1 : extractJsonSlice text.data = some js)
    (h2 : jsonParseL js = some (Json.arr [])) :
    fetchAndDisplayNews true (Except.ok text)
      = { loading := false, results := noNewsMsg } := by
  have hne := extract_ne_nil h1
  have hI : innerRender text.data = Except.ok noNewsMsg.data := by
    simp [innerRender, h1, h2]
  rw [fetch_ok text hne _ hI]

/-- Witness for C8 at the payload `[]`. -/
theorem empty_array_no_news_witness :
    extractJsonSlice ("[]" : String).data = some "[]".data
      ∧ jsonParseL "[]".data = some (Json.arr [])
        ∧ fetchAndDisplayNews true (Except.ok "[]")
            = { loading := false, results := noNewsMsg } :=
  ⟨rfl, rfl, empty_array_no_news "[]" "[]".data rfl rfl⟩

/-- C6: on every non-empty response text in which a bracket is missing,
or whose extracted slice `JSON.parse` rejects, the run renders the raw
response text escaped with line breaks turned into `<br>`
(`fallbackMarkup`), not the generic error message. -/
theorem fallback_on_unparseable (text : String)
    (hne : text.data.isEmpty = false)
    (h : extractJsonSlice text.data = none
          ∨ ∃ js, extractJsonSlice text.data = some js ∧ jsonParseL js = none) :
    fetchAndDisplayNews true (Except.ok text)
      = { loading := false, results := String.mk (fallbackMarkup text.data) } := by
  have hI : innerRender text.data = Except.error () := by
    rcases h with h | ⟨js, hj1, hj2⟩
    · simp [innerRender, h]
    · simp [innerRender, hj1, hj2]
  exact fetch_err text hne hI

/-- Witness for C6 at the payload `no brackets here`. -/
theorem fallback_on_unparseable_witness :
    ("no brackets here" : String).data.isEmpty = false
      ∧ extractJsonSlice ("no brackets here" : String).data = none
        ∧ fetchAndDisplayNews true (Except.ok "no brackets here")
            = { loading := false,
                results := String.mk (fallbackMarkup ("no brackets here" : String).data) } :=
  ⟨rfl, rfl, fallback_on_unparseable "no brackets here" rfl (Or.inl rfl)⟩

/-- C5 as amended: for a parsed article array in which no record makes
the loop body throw (every record with both fields truthy carries a
string url the `URL` constructor accepts), the loop renders exactly the
concatenation of the markups of the individual records — so each valid
record is rendered — and every record failing the non-empty-fields
guard contributes nothing, the loop continuing past it. -/
theorem skip_invalid_render_valid (items : List Json)
    (h : ∀ a ∈ items, articleOk a = true) :
    renderLoop [] items = Except.ok ((items.map renderItem).flatten)
      ∧ ∀ a : Json, renderable a = false → renderItem a = [] := by
  constructor
  · simpa using renderLoop_ok items h []
  · intro a hr
    unfold renderable at hr
    cases a with
    | null => rfl
    | bool b => simp [renderItem, renderStep, hr]
    | num n => simp [renderItem, renderStep, hr]
    | str s => simp [renderItem, renderStep, hr]
    | arr xs => simp [renderItem, renderStep, hr]
    | obj kvs => simp [renderItem, renderStep, hr]

/-- Witness for the amended C5: a record missing `url` next to a fully
valid sibling; the loop succeeds and renders the concatenation, in
which the invalid record contributes nothing. -/
theorem skip_invalid_render_valid_witness :
    (∀ a ∈ itemsW, articleOk a = true)
      ∧ renderLoop [] itemsW = Except.ok ((itemsW.map renderItem).flatten) :=
  ⟨by decide, (skip_invalid_render_valid itemsW (by decide)).1⟩

/-- C10: whenever the parsed array is some valid prefix, then a record
whose fields are non-empty strings but whose url the `URL` constructor
rejects, then anything, the throw inside the loop abandons the batch
and the inner catch overwrites the container with the escaped raw
response text — discarding the valid records already rendered. -/
theorem bad_url_abandons_batch (text : String) (js : List Char)
    (pre post : List Json) (a : Json)
    (h1 : extractJsonSlice text.data = some js)
    (h2 : jsonParseL js = some (Json.arr (pre ++ a :: post)))
    (h3 : ∀ b ∈ pre, articleOk b = true)
    (h4 : badUrlArticle a = true) :
    fetchAndDisplayNews true (Except.ok text)
      = { loading := false, results := String.mk (fallbackMarkup text.data) } := by
  have hne := extract_ne_nil h1
  have hloop := renderLoop_error_mid a post h4 pre h3 []
  have hI : innerRender text.data = Except.error () := by
    have hemp : (pre ++ a :: post).isEmpty = false := by cases pre <;> rfl
    simp [innerRender, h1, h2, hemp, hloop]
  exact fetch_err text hne hI

/-- Witness for C10: a payload of three records, the middle one with an
unusable url, loses its already-renderable first record to the
fallback. -/
theorem bad_url_abandons_batch_witness :
    (∀ b ∈ preC10, articleOk b = true)
      ∧ badUrlArticle recB10 = true
        ∧ fetchAndDisplayNews true (Except.ok textC10)
            = { loading := false, results := String.mk (fallbackMarkup textC10.data) } :=
  ⟨by decide, by decide,
    bad_url_abandons_batch textC10 textC10.data preC10 postC10 recB10
      rfl rfl (by decide) (by decide)⟩

end TrendingNews
